import Mathlib

/-!
Shallow embedding of the `Sheets` workflow core and the admin-elevation
logic of `src/app.py` (NEXT SYSTEM bot).  The four spreadsheet
collections become lists of typed rows; every operation of the `Sheets`
class becomes a pure function that takes the collection states (and the
current timestamp / UTC date, which the Python code reads from the
clock) and returns the result together with the new collection states.
-/

namespace NextBot

/-- A row of the `Offers` worksheet: `[offer_id, name, cap_daily, is_active]`.
`is_active` is kept as the raw cell string, since the source inspects the
string (`str(...).strip().upper() in {"TRUE","1","YES","Y"}`). -/
structure OfferRow where
  offer_id : String
  name : String
  cap_daily : Nat
  is_active : String
deriving DecidableEq

/-- A row of the `Drops` (participants) worksheet:
`[tg_user_id, username, created_at, status]`. -/
structure DropRow where
  tg_user_id : Nat
  username : String
  created_at : String
  status : String
deriving DecidableEq

/-- A row of the `Queue` worksheet:
`[queue_id, tg_user_id, offer_id, queued_at, status]`. -/
structure QueueRow where
  queue_id : Nat
  tg_user_id : Nat
  offer_id : String
  queued_at : String
  status : String
deriving DecidableEq

/-- A row of the `Proofs` worksheet: `[proof_id, queue_id, tg_user_id,
offer_id, file_id, file_type, submitted_at, manager_note, decision]`. -/
structure ProofRow where
  proof_id : Nat
  queue_id : Nat
  tg_user_id : Nat
  offer_id : String
  file_id : String
  file_type : String
  submitted_at : String
  manager_note : String
  decision : String
deriving DecidableEq

/-- `Sheets._next_id`: scan all rows, take the running maximum of the id
field starting from 0, and add one. -/
def nextIdFrom (ids : List Nat) : Nat :=
  ids.foldl max 0 + 1

/-- Next `queue_id` for the `Queue` collection (`_next_id("Queue", "queue_id")`). -/
def nextQueueId (queue : List QueueRow) : Nat :=
  nextIdFrom (queue.map QueueRow.queue_id)

/-- Next `proof_id` for the `Proofs` collection (`_next_id("Proofs", "proof_id")`). -/
def nextProofId (proofs : List ProofRow) : Nat :=
  nextIdFrom (proofs.map ProofRow.proof_id)

/-- Python `str.strip()`: drop whitespace from both ends of the string. -/
def stripStr (s : String) : String :=
  ⟨((s.data.dropWhile Char.isWhitespace).reverse.dropWhile Char.isWhitespace).reverse⟩

/-- Python `str.upper()`: uppercase every character. -/
def upperStr (s : String) : String :=
  ⟨s.data.map Char.toUpper⟩

/-- The truthy forms accepted for `is_active` in `list_active_offers`. -/
def activeForms : List String :=
  ["TRUE", "1", "YES", "Y"]

/-- `str(r.get("is_active","")).strip().upper() in {"TRUE","1","YES","Y"}`. -/
def isActiveVal (s : String) : Bool :=
  activeForms.contains (upperStr (stripStr s))

/-- The projection of an active offer returned by `Sheets.list_active_offers`. -/
structure ActiveOffer where
  offer_id : String
  name : String
  cap_daily : Nat
deriving DecidableEq

/-- `Sheets.list_active_offers`: keep rows whose `is_active` cell is truthy,
stripping `offer_id` and `name`. -/
def list_active_offers (offers : List OfferRow) : List ActiveOffer :=
  (offers.filter (fun r => isActiveVal r.is_active)).map
    (fun r => ⟨stripStr r.offer_id, stripStr r.name, r.cap_daily⟩)

/-- The Python dict comprehension `{o["offer_id"]: o for o in offers}` keeps
the last entry for each key, so `offers.get(offer_id)` is a last-match
lookup over the active-offer list. -/
def lookupOffer (actives : List ActiveOffer) (offer_id : String) : Option ActiveOffer :=
  actives.reverse.find? (fun o => o.offer_id == offer_id)

/-- Queue statuses counted against the daily cap in `today_assigned_count`. -/
def countedStatuses : List String :=
  ["IN_QUEUE", "ASSIGNED", "PROOF_REQUIRED", "PROOF_SENT", "REPEAT_REQUIRED"]

/-- `Sheets.today_assigned_count`: count `Queue` rows matching the offer
whose `queued_at` is non-empty with date portion (first 10 characters)
equal to `today`, and whose status is one of the counted statuses. -/
def today_assigned_count (queue : List QueueRow) (offer_id : String) (today : String) : Nat :=
  (queue.filter (fun r =>
    r.offer_id == offer_id &&
    (r.queued_at != "" && r.queued_at.take 10 == today) &&
    countedStatuses.contains r.status)).length

/-- The value `join_queue` returns: `{"queue_id": qid, "status": "IN_QUEUE"}`. -/
structure JoinResult where
  queue_id : Nat
  status : String
deriving DecidableEq

/-- `Sheets.join_queue`: allocate the next queue id, append a fresh
`IN_QUEUE` row timestamped `now`, and return `{queue_id, status}`. -/
def join_queue (queue : List QueueRow) (tg_user_id : Nat) (offer_id : String)
    (now : String) : JoinResult × List QueueRow :=
  let qid := nextQueueId queue
  (⟨qid, "IN_QUEUE"⟩, queue ++ [⟨qid, tg_user_id, offer_id, now, "IN_QUEUE"⟩])

/-- Outcome of the `offer_selected` handler. -/
inductive JoinOutcome where
  | offerInactive : JoinOutcome
  | capacityExceeded : JoinOutcome
  | joined : JoinResult → JoinOutcome
deriving DecidableEq

/-- The `offer_selected` callback handler: look the offer up among the
active offers; refuse if absent, refuse if `today_assigned_count`
has reached `cap_daily`, otherwise `join_queue`. -/
def offer_selected (offers : List OfferRow) (queue : List QueueRow)
    (tg_user_id : Nat) (offer_id : String) (today now : String) :
    JoinOutcome × List QueueRow :=
  match lookupOffer (list_active_offers offers) offer_id with
  | none => (JoinOutcome.offerInactive, queue)
  | some off =>
      if off.cap_daily ≤ today_assigned_count queue offer_id today then
        (JoinOutcome.capacityExceeded, queue)
      else
        let p := join_queue queue tg_user_id offer_id now
        (JoinOutcome.joined p.1, p.2)

/-- `Sheets.update_queue_status`: set the status cell of the first `Queue`
row whose `queue_id` matches; silently do nothing when no row matches. -/
def update_queue_status (queue : List QueueRow) (queue_id : Nat) (status : String) :
    List QueueRow :=
  match queue with
  | [] => []
  | r :: rest =>
      if r.queue_id == queue_id then { r with status := status } :: rest
      else r :: update_queue_status rest queue_id status

/-- `Sheets.add_proof`: allocate the next proof id, append a `PENDING`
proof row with empty `manager_note`, mark the queue entry `PROOF_SENT`,
and return the new proof id. -/
def add_proof (proofs : List ProofRow) (queue : List QueueRow)
    (queue_id tg_user_id : Nat) (offer_id file_id file_type now : String) :
    Nat × List ProofRow × List QueueRow :=
  let pid := nextProofId proofs
  (pid,
   proofs ++ [⟨pid, queue_id, tg_user_id, offer_id, file_id, file_type, now, "", "PENDING"⟩],
   update_queue_status queue queue_id "PROOF_SENT")

/-- The queue-status mirroring inside `decide_proof`: only the three
decision strings update the parent queue entry. -/
def decisionStatusUpdate (queue : List QueueRow) (qid : Nat) (decision : String) :
    List QueueRow :=
  if decision == "APPROVED" then update_queue_status queue qid "APPROVED"
  else if decision == "REJECTED" then update_queue_status queue qid "REJECTED"
  else if decision == "REPEAT_REQUIRED" then update_queue_status queue qid "REPEAT_REQUIRED"
  else queue

/-- `Sheets.decide_proof`: find the first proof row matching `proof_id`;
write `decision` into its decision cell, write `note` into its
`manager_note` cell only when `note` is non-empty, mirror the decision
onto the parent queue entry, and return the row *as read before the
updates*; return `none` when no row matches. -/
def decide_proof (proofs : List ProofRow) (queue : List QueueRow)
    (proof_id : Nat) (decision note : String) :
    Option ProofRow × List ProofRow × List QueueRow :=
  match proofs with
  | [] => (none, [], queue)
  | r :: rest =>
      if r.proof_id == proof_id then
        (some r,
         { r with decision := decision,
                  manager_note := if note != "" then note else r.manager_note } :: rest,
         decisionStatusUpdate queue r.queue_id decision)
      else
        let p := decide_proof rest queue proof_id decision note
        (p.1, r :: p.2.1, p.2.2)

/-- `Sheets.ensure_drop`: append a fresh `active` participant row unless a
row with the same `tg_user_id` already exists. -/
def ensure_drop (drops : List DropRow) (tg_user_id : Nat) (username now : String) :
    List DropRow :=
  if drops.any (fun r => r.tg_user_id == tg_user_id) then drops
  else drops ++ [⟨tg_user_id, username, now, "active"⟩]

/-- The configured elevation secret: `os.getenv("PIN_CODE", "1588")` with
the environment variable unset. -/
def PIN_CODE : String := "1588"

/-- The `/pin` handler `cmd_pin`: strip the argument; an empty argument
only prints usage, a correct pin adds the caller to the elevated set,
anything else leaves the set unchanged. -/
def cmd_pin (elevated : List Nat) (user_id : Nat) (args : String) : List Nat :=
  let code := stripStr args
  if code = "" then elevated
  else if code = PIN_CODE then elevated.insert user_id
  else elevated

/-- `is_admin`: member of the static `ADMIN_IDS` allow-list or of the
runtime elevated set. -/
def is_admin (adminIds elevated : List Nat) (user_id : Nat) : Bool :=
  adminIds.contains user_id || elevated.contains user_id

/-- Run a sequence of `/pin` invocations (caller id, argument string)
against an elevated-set state. -/
def runPins (elevated : List Nat) (calls : List (Nat × String)) : List Nat :=
  calls.foldl (fun s c => cmd_pin s c.1 c.2) elevated

/-- A queue entry as later read back: first row matching the id. -/
def find_queue_entry (queue : List QueueRow) (qid : Nat) : Option QueueRow :=
  queue.find? (fun r => r.queue_id == qid)

/-- `capacityRemaining(offerId)` from the spec: `dailyCap` minus the
day-and-status-filtered count; the code compares `today_assigned_count`
directly against `cap_daily`, which is the same test. -/
def capacityRemaining (cap_daily : Nat) (queue : List QueueRow)
    (offer_id today : String) : Int :=
  (cap_daily : Int) - (today_assigned_count queue offer_id today : Int)

/-- The row predicate of claim C2, worded from the spec: the offer matches,
the date portion (first 10 characters) of `queued_at` equals today, and
the status is one of the five non-terminal counted statuses. -/
def countedByClaim (r : QueueRow) (offer_id today : String) : Bool :=
  r.offer_id == offer_id && r.queued_at.take 10 == today &&
    countedStatuses.contains r.status

/-! ## Helper lemmas -/

lemma foldl_max_init_le (l : List Nat) (a : Nat) : a ≤ l.foldl max a := by
  induction l generalizing a with
  | nil => simp
  | cons x xs ih => exact le_trans (Nat.le_max_left a x) (ih (max a x))

lemma foldl_max_le_of_mem {l : List Nat} {i : Nat} (h : i ∈ l) (a : Nat) :
    i ≤ l.foldl max a := by
  induction l generalizing a with
  | nil => simp at h
  | cons x xs ih =>
      rcases List.mem_cons.mp h with rfl | hmem
      · exact le_trans (Nat.le_max_right a i) (foldl_max_init_le xs (max a i))
      · exact ih hmem (max a x)

lemma foldl_max_eq_init_or_mem (l : List Nat) (a : Nat) :
    l.foldl max a = a ∨ l.foldl max a ∈ l := by
  induction l generalizing a with
  | nil => exact Or.inl rfl
  | cons x xs ih =>
      rw [List.foldl_cons]
      rcases ih (max a x) with h | h
      · rw [h]
        rcases Nat.le_total a x with hax | hxa
        · exact Or.inr (by rw [Nat.max_eq_right hax]; exact List.mem_cons_self x xs)
        · exact Or.inl (Nat.max_eq_left hxa)
      · exact Or.inr (List.mem_cons_of_mem x h)

lemma update_queue_status_no_match (queue : List QueueRow) (qid : Nat) (s : String)
    (h : ∀ r ∈ queue, r.queue_id ≠ qid) :
    update_queue_status queue qid s = queue := by
  induction queue with
  | nil => rfl
  | cons r rest ih =>
      have hr : r.queue_id ≠ qid := h r (List.mem_cons_self r rest)
      simp only [update_queue_status]
      rw [if_neg (by simpa using hr), ih (fun x hx => h x (List.mem_cons_of_mem r hx))]

lemma update_queue_status_split (l₁ l₂ : List QueueRow) (e : QueueRow) (qid : Nat)
    (s : String) (hl : ∀ x ∈ l₁, x.queue_id ≠ qid) (he : e.queue_id = qid) :
    update_queue_status (l₁ ++ e :: l₂) qid s = l₁ ++ { e with status := s } :: l₂ := by
  induction l₁ with
  | nil => simp [update_queue_status, he]
  | cons x xs ih =>
      have hx : x.queue_id ≠ qid := hl x (List.mem_cons_self x xs)
      simp only [List.cons_append, update_queue_status, List.append_eq]
      rw [if_neg (by simpa using hx), ih (fun y hy => hl y (List.mem_cons_of_mem x hy))]

lemma find_queue_entry_update (queue : List QueueRow) (qid : Nat) (s : String)
    (h : ∃ e ∈ queue, e.queue_id = qid) :
    ∃ u, find_queue_entry (update_queue_status queue qid s) qid = some u ∧
      u.status = s ∧ u.queue_id = qid := by
  induction queue with
  | nil => simp at h
  | cons r rest ih =>
      by_cases hr : r.queue_id = qid
      · refine ⟨{ r with status := s }, ?_, rfl, hr⟩
        simp [update_queue_status, find_queue_entry, hr]
      · obtain ⟨e, he, heq⟩ := h
        rcases List.mem_cons.mp he with rfl | hmem
        · exact absurd heq hr
        · obtain ⟨u, hu, hus, huq⟩ := ih ⟨e, hmem, heq⟩
          refine ⟨u, ?_, hus, huq⟩
          simpa [update_queue_status, find_queue_entry, hr] using hu

lemma decide_proof_none_iff (proofs : List ProofRow) (queue : List QueueRow)
    (pid : Nat) (d note : String) :
    (decide_proof proofs queue pid d note).1 = none ↔ ∀ x ∈ proofs, x.proof_id ≠ pid := by
  induction proofs with
  | nil => simp [decide_proof]
  | cons r rest ih =>
      by_cases hr : r.proof_id = pid
      · simp [decide_proof, hr]
      · simp [decide_proof, hr, ih]

lemma decide_proof_split (l₁ l₂ : List ProofRow) (r : ProofRow) (queue : List QueueRow)
    (pid : Nat) (d note : String)
    (hl : ∀ x ∈ l₁, x.proof_id ≠ pid) (hr : r.proof_id = pid) :
    decide_proof (l₁ ++ r :: l₂) queue pid d note =
      (some r,
       l₁ ++ { r with decision := d,
                      manager_note := if note != "" then note else r.manager_note } :: l₂,
       decisionStatusUpdate queue r.queue_id d) := by
  induction l₁ with
  | nil => simp [decide_proof, hr]
  | cons x xs ih =>
      have hx : x.proof_id ≠ pid := hl x (List.mem_cons_self x xs)
      simp only [List.cons_append, decide_proof, List.append_eq]
      rw [if_neg (by simpa using hx), ih (fun y hy => hl y (List.mem_cons_of_mem x hy))]

lemma lookupOffer_none_iff (offers : List OfferRow) (oid : String) :
    lookupOffer (list_active_offers offers) oid = none ↔
      ∀ r ∈ offers, isActiveVal r.is_active = true → stripStr r.offer_id ≠ oid := by
  simp only [lookupOffer, List.find?_eq_none, List.mem_reverse, list_active_offers,
    List.mem_map, List.mem_filter]
  constructor
  · intro h r hr hact
    have := h ⟨stripStr r.offer_id, stripStr r.name, r.cap_daily⟩ ⟨r, ⟨hr, hact⟩, rfl⟩
    simpa using this
  · rintro h o ⟨r, ⟨hr, hact⟩, rfl⟩
    simpa using h r hr hact

lemma take_empty : ("" : String).take 10 = "" := rfl

lemma counted_pointwise (r : QueueRow) (oid today : String) (h : today ≠ "") :
    (r.offer_id == oid &&
      (r.queued_at != "" && r.queued_at.take 10 == today) &&
      countedStatuses.contains r.status) = countedByClaim r oid today := by
  by_cases hq : r.queued_at = ""
  · have h2 : (("" : String) == today) = false := by
      simpa using (Ne.symm h)
    simp [countedByClaim, hq, take_empty, h2]
  · have h2 : (r.queued_at != "") = true := by simpa using hq
    simp [countedByClaim, h2]

lemma cmd_pin_mono {e : List Nat} {id : Nat} (u : Nat) (args : String) (h : id ∈ e) :
    id ∈ cmd_pin e u args := by
  simp only [cmd_pin]
  by_cases h1 : stripStr args = ""
  · rwa [if_pos h1]
  · rw [if_neg h1]
    by_cases h2 : stripStr args = PIN_CODE
    · rw [if_pos h2]
      exact List.mem_insert_iff.mpr (Or.inr h)
    · rwa [if_neg h2]

lemma runPins_mono {e : List Nat} {id : Nat} (calls : List (Nat × String)) (h : id ∈ e) :
    id ∈ runPins e calls := by
  induction calls generalizing e with
  | nil => exact h
  | cons c cs ih => exact ih (cmd_pin_mono c.1 c.2 h)

lemma is_admin_iff (adminIds e : List Nat) (id : Nat) :
    is_admin adminIds e id = true ↔ id ∈ adminIds ∨ id ∈ e := by
  simp [is_admin]

/-! ## Claim theorems -/

/-- Claim C1: `join` (the `offer_selected` handler) refuses with
`OfferInactive` when no active offer row matches the id, refuses with
`CapacityExceeded` when `capacityRemaining ≤ 0`, leaving the queue
unchanged in both failure cases; otherwise it appends exactly one
`IN_QUEUE` row with the freshly allocated queue id and returns that
entry. -/
theorem C1_join_outcomes (offers : List OfferRow) (queue : List QueueRow)
    (uid : Nat) (oid today now : String) :
    ((∀ r ∈ offers, isActiveVal r.is_active = true → stripStr r.offer_id ≠ oid) →
      offer_selected offers queue uid oid today now = (JoinOutcome.offerInactive, queue)) ∧
    (∀ off, lookupOffer (list_active_offers offers) oid = some off →
      (capacityRemaining off.cap_daily queue oid today ≤ 0 →
        offer_selected offers queue uid oid today now = (JoinOutcome.capacityExceeded, queue)) ∧
      (0 < capacityRemaining off.cap_daily queue oid today →
        offer_selected offers queue uid oid today now =
          (JoinOutcome.joined ⟨nextQueueId queue, "IN_QUEUE"⟩,
           queue ++ [⟨nextQueueId queue, uid, oid, now, "IN_QUEUE"⟩]))) := by
  constructor
  · intro h
    have hn : lookupOffer (list_active_offers offers) oid = none :=
      (lookupOffer_none_iff offers oid).mpr h
    simp [offer_selected, hn]
  · intro off hoff
    constructor
    · intro hcap
      have hle : off.cap_daily ≤ today_assigned_count queue oid today := by
        unfold capacityRemaining at hcap
        omega
      simp [offer_selected, hoff, hle]
    · intro hcap
      have hlt : ¬ off.cap_daily ≤ today_assigned_count queue oid today := by
        unfold capacityRemaining at hcap
        omega
      simp [offer_selected, hoff, hlt, join_queue]

theorem C1_join_outcomes_witness :
    (0 < capacityRemaining 1 [] "1" "2026-10-12" ∧
      offer_selected [⟨"1", "X", 1, "TRUE"⟩] [] 42 "1" "2026-10-12"
          "2026-10-12T10:00:00+00:00" =
        (JoinOutcome.joined ⟨1, "IN_QUEUE"⟩,
         [⟨1, 42, "1", "2026-10-12T10:00:00+00:00", "IN_QUEUE"⟩])) ∧
    (capacityRemaining 0 [] "1" "2026-10-12" ≤ 0 ∧
      offer_selected [⟨"1", "X", 0, "TRUE"⟩] [] 42 "1" "2026-10-12"
          "2026-10-12T10:00:00+00:00" = (JoinOutcome.capacityExceeded, [])) := by
  refine ⟨⟨by decide, ?_⟩, ⟨by decide, ?_⟩⟩
  · exact ((C1_join_outcomes [⟨"1", "X", 1, "TRUE"⟩] [] 42 "1" "2026-10-12"
      "2026-10-12T10:00:00+00:00").2 ⟨"1", "X", 1⟩ (by decide)).2 (by decide)
  · exact ((C1_join_outcomes [⟨"1", "X", 0, "TRUE"⟩] [] 42 "1" "2026-10-12"
      "2026-10-12T10:00:00+00:00").2 ⟨"1", "X", 0⟩ (by decide)).1 (by decide)

/-- Claim C2: `capacityRemaining(offerId)` equals `dailyCap` minus the
number of queue rows matching the offer whose `queued_at` date portion
(first 10 characters) equals today's UTC date and whose status is
non-terminal; rows with a different date, a terminal status, or a
different offer are not counted. -/
theorem C2_capacity_formula (cap : Nat) (queue : List QueueRow) (oid today : String)
    (h : today ≠ "") :
    capacityRemaining cap queue oid today =
      (cap : Int) - ((queue.filter (fun r => countedByClaim r oid today)).length : Int) := by
  have hcnt : today_assigned_count queue oid today =
      (queue.filter (fun r => countedByClaim r oid today)).length :=
    congrArg List.length (List.filter_congr (fun r _ => counted_pointwise r oid today h))
  unfold capacityRemaining
  rw [hcnt]

theorem C2_capacity_formula_witness :
    ("2026-10-12" ≠ "") ∧
    capacityRemaining 5
        [⟨1, 42, "1", "2026-10-12T00:00:01+00:00", "IN_QUEUE"⟩,
         ⟨2, 43, "1", "2026-10-11T00:00:01+00:00", "IN_QUEUE"⟩,
         ⟨3, 44, "1", "2026-10-12T05:00:01+00:00", "APPROVED"⟩,
         ⟨4, 45, "2", "2026-10-12T05:00:01+00:00", "IN_QUEUE"⟩,
         ⟨5, 46, "1", "2026-10-12T06:00:01+00:00", "REPEAT_REQUIRED"⟩] "1" "2026-10-12" =
      (5 : Int) -
        (([⟨1, 42, "1", "2026-10-12T00:00:01+00:00", "IN_QUEUE"⟩,
           ⟨2, 43, "1", "2026-10-11T00:00:01+00:00", "IN_QUEUE"⟩,
           ⟨3, 44, "1", "2026-10-12T05:00:01+00:00", "APPROVED"⟩,
           ⟨4, 45, "2", "2026-10-12T05:00:01+00:00", "IN_QUEUE"⟩,
           ⟨5, 46, "1", "2026-10-12T06:00:01+00:00", "REPEAT_REQUIRED"⟩] :
            List QueueRow).filter (fun r => countedByClaim r "1" "2026-10-12")).length :=
  ⟨by decide,
   C2_capacity_formula 5
     [⟨1, 42, "1", "2026-10-12T00:00:01+00:00", "IN_QUEUE"⟩,
      ⟨2, 43, "1", "2026-10-11T00:00:01+00:00", "IN_QUEUE"⟩,
      ⟨3, 44, "1", "2026-10-12T05:00:01+00:00", "APPROVED"⟩,
      ⟨4, 45, "2", "2026-10-12T05:00:01+00:00", "IN_QUEUE"⟩,
      ⟨5, 46, "1", "2026-10-12T06:00:01+00:00", "REPEAT_REQUIRED"⟩] "1" "2026-10-12"
     (by decide)⟩

/-- Claim C3: `decide_proof` returns no record exactly when no submission
row matches the proof id; on a match it writes the decision into the
stored row, writes the reviewer note only when non-empty, and mirrors
the decision onto the parent queue entry (mapping each decision to the
equally-named queue status), so a subsequent read of the linked queue
entry yields the decided status. -/
theorem C3_decide_propagates (proofs l₁ l₂ : List ProofRow) (r : ProofRow)
    (queue : List QueueRow) (pid : Nat) (d note : String) :
    ((decide_proof proofs queue pid d note).1 = none ↔ ∀ x ∈ proofs, x.proof_id ≠ pid) ∧
    (proofs = l₁ ++ r :: l₂ → (∀ x ∈ l₁, x.proof_id ≠ pid) → r.proof_id = pid →
      (decide_proof proofs queue pid d note).1 = some r ∧
      (decide_proof proofs queue pid d note).2.1 =
        l₁ ++ { r with decision := d,
                       manager_note := if note != "" then note else r.manager_note } :: l₂ ∧
      ((d = "APPROVED" ∨ d = "REJECTED" ∨ d = "REPEAT_REQUIRED") →
        (∃ e ∈ queue, e.queue_id = r.queue_id) →
        ∃ u, find_queue_entry ((decide_proof proofs queue pid d note).2.2)
              r.queue_id = some u ∧ u.status = d)) := by
  refine ⟨decide_proof_none_iff proofs queue pid d note, ?_⟩
  rintro rfl hl hr
  have hsplit := decide_proof_split l₁ l₂ r queue pid d note hl hr
  refine ⟨by rw [hsplit], by rw [hsplit], ?_⟩
  intro hd he
  rw [hsplit]
  have hupd : decisionStatusUpdate queue r.queue_id d =
      update_queue_status queue r.queue_id d := by
    rcases hd with rfl | rfl | rfl <;> rfl
  rw [hupd]
  obtain ⟨u, hu, hus, _⟩ := find_queue_entry_update queue r.queue_id d he
  exact ⟨u, hu, hus⟩

theorem C3_decide_propagates_witness :
    (decide_proof [⟨1, 9, 42, "1", "f", "photo", "t", "", "PENDING"⟩]
        [⟨9, 42, "1", "t", "PROOF_SENT"⟩] 1 "APPROVED" "").1 =
      some ⟨1, 9, 42, "1", "f", "photo", "t", "", "PENDING"⟩ ∧
    ∃ u, find_queue_entry
          ((decide_proof [⟨1, 9, 42, "1", "f", "photo", "t", "", "PENDING"⟩]
            [⟨9, 42, "1", "t", "PROOF_SENT"⟩] 1 "APPROVED" "").2.2) 9 = some u ∧
        u.status = "APPROVED" := by
  have h := (C3_decide_propagates [⟨1, 9, 42, "1", "f", "photo", "t", "", "PENDING"⟩]
    [] [] ⟨1, 9, 42, "1", "f", "photo", "t", "", "PENDING"⟩
    [⟨9, 42, "1", "t", "PROOF_SENT"⟩] 1 "APPROVED" "").2 rfl (by simp) rfl
  exact ⟨h.1, h.2.2 (Or.inl rfl) ⟨⟨9, 42, "1", "t", "PROOF_SENT"⟩, by simp, rfl⟩⟩

/-- Claim C4: `add_proof` allocates a fresh proof id, appends exactly one
`PENDING` proof row with empty reviewer note, returns the new id, and
sets the status of the queue row matching the queue id to `PROOF_SENT`
while leaving every other queue row unchanged. -/
theorem C4_submit (proofs : List ProofRow) (queue l₁ l₂ : List QueueRow) (e : QueueRow)
    (qid uid : Nat) (oid fid ftype now : String) :
    (add_proof proofs queue qid uid oid fid ftype now).1 = nextProofId proofs ∧
    (add_proof proofs queue qid uid oid fid ftype now).2.1 =
      proofs ++ [⟨nextProofId proofs, qid, uid, oid, fid, ftype, now, "", "PENDING"⟩] ∧
    (queue = l₁ ++ e :: l₂ → e.queue_id = qid → (∀ x ∈ l₁, x.queue_id ≠ qid) →
      (add_proof proofs queue qid uid oid fid ftype now).2.2 =
        l₁ ++ { e with status := "PROOF_SENT" } :: l₂) := by
  refine ⟨rfl, rfl, ?_⟩
  rintro rfl he hl
  exact update_queue_status_split l₁ l₂ e qid "PROOF_SENT" hl he

theorem C4_submit_witness :
    (add_proof [] [⟨9, 42, "1", "t", "IN_QUEUE"⟩, ⟨10, 43, "1", "t", "IN_QUEUE"⟩]
        9 42 "1" "f" "photo" "t2").1 = nextProofId [] ∧
    (add_proof [] [⟨9, 42, "1", "t", "IN_QUEUE"⟩, ⟨10, 43, "1", "t", "IN_QUEUE"⟩]
        9 42 "1" "f" "photo" "t2").2.1 =
      [] ++ [⟨nextProofId [], 9, 42, "1", "f", "photo", "t2", "", "PENDING"⟩] ∧
    (add_proof [] [⟨9, 42, "1", "t", "IN_QUEUE"⟩, ⟨10, 43, "1", "t", "IN_QUEUE"⟩]
        9 42 "1" "f" "photo" "t2").2.2 =
      [] ++ ⟨9, 42, "1", "t", "PROOF_SENT"⟩ :: [⟨10, 43, "1", "t", "IN_QUEUE"⟩] := by
  have h := C4_submit [] [⟨9, 42, "1", "t", "IN_QUEUE"⟩, ⟨10, 43, "1", "t", "IN_QUEUE"⟩]
    [] [⟨10, 43, "1", "t", "IN_QUEUE"⟩] ⟨9, 42, "1", "t", "IN_QUEUE"⟩ 9 42 "1" "f" "photo" "t2"
  exact ⟨h.1, h.2.1, h.2.2 rfl rfl (by simp)⟩

/-- Claim C5: the allocator returns one plus the maximum identifier
already present (one on the empty collection); every allocated
identifier strictly dominates all existing ones — in particular the
queue and proof allocators — and a subsequent allocation after appending
the allocated id is strictly larger again. -/
theorem C5_id_allocation (ids : List Nat) (queue : List QueueRow)
    (proofs : List ProofRow) :
    (ids = [] → nextIdFrom ids = 1) ∧
    (ids ≠ [] → ∃ m ∈ ids, (∀ i ∈ ids, i ≤ m) ∧ nextIdFrom ids = m + 1) ∧
    (∀ i ∈ ids, i < nextIdFrom ids) ∧
    nextIdFrom (ids ++ [nextIdFrom ids]) = nextIdFrom ids + 1 ∧
    (∀ r ∈ queue, r.queue_id < nextQueueId queue) ∧
    (∀ p ∈ proofs, p.proof_id < nextProofId proofs) := by
  have hdom : ∀ (l : List Nat), ∀ i ∈ l, i < nextIdFrom l := by
    intro l i hi
    have := foldl_max_le_of_mem hi 0
    unfold nextIdFrom
    omega
  refine ⟨?_, ?_, hdom ids, ?_, ?_, ?_⟩
  · rintro rfl; rfl
  · intro hne
    refine ⟨ids.foldl max 0, ?_, fun i hi => foldl_max_le_of_mem hi 0, rfl⟩
    rcases foldl_max_eq_init_or_mem ids 0 with h0 | hmem
    · rcases ids with _ | ⟨x, xs⟩
      · exact absurd rfl hne
      · have hx : x ≤ (x :: xs).foldl max 0 :=
          foldl_max_le_of_mem (List.mem_cons_self x xs) 0
        rw [h0]
        rw [h0] at hx
        have : x = 0 := Nat.le_zero.mp hx
        rw [← this]
        exact List.mem_cons_self x xs
    · exact hmem
  · unfold nextIdFrom
    rw [List.foldl_append]
    have h1 : List.foldl max (ids.foldl max 0) [ids.foldl max 0 + 1] =
        max (ids.foldl max 0) (ids.foldl max 0 + 1) := rfl
    rw [h1, Nat.max_eq_right (Nat.le_succ _)]
  · intro r hr
    exact hdom (queue.map QueueRow.queue_id) r.queue_id (List.mem_map_of_mem _ hr)
  · intro p hp
    exact hdom (proofs.map ProofRow.proof_id) p.proof_id (List.mem_map_of_mem _ hp)

theorem C5_id_allocation_witness :
    nextIdFrom [] = 1 ∧
    (∃ m ∈ [3, 7, 2], (∀ i ∈ [3, 7, 2], i ≤ m) ∧ nextIdFrom [3, 7, 2] = m + 1) ∧
    nextIdFrom ([3, 7, 2] ++ [nextIdFrom [3, 7, 2]]) = nextIdFrom [3, 7, 2] + 1 :=
  ⟨(C5_id_allocation [] [] []).1 rfl,
   (C5_id_allocation [3, 7, 2] [] []).2.1 (by decide),
   (C5_id_allocation [3, 7, 2] [] []).2.2.2.1⟩

/-- Claim C6: registration is idempotent — `ensure_drop` appends nothing
when a row for the participant already exists, a second call never
changes the result of the first, and starting from a state without the
participant, two successive calls leave exactly one row for it. -/
theorem C6_registration_idempotent (drops : List DropRow) (uid : Nat)
    (un now un2 now2 : String) :
    ((∃ r ∈ drops, r.tg_user_id = uid) → ensure_drop drops uid un now = drops) ∧
    ensure_drop (ensure_drop drops uid un now) uid un2 now2 =
      ensure_drop drops uid un now ∧
    ((∀ r ∈ drops, r.tg_user_id ≠ uid) →
      ((ensure_drop (ensure_drop drops uid un now) uid un2 now2).filter
        (fun r => r.tg_user_id == uid)).length = 1) := by
  by_cases h : drops.any (fun r => r.tg_user_id == uid) = true
  · have h1 : ensure_drop drops uid un now = drops := by simp [ensure_drop, h]
    refine ⟨fun _ => h1, ?_, ?_⟩
    · rw [h1]
      simp [ensure_drop, h]
    · intro habs
      obtain ⟨r, hr, heq⟩ := List.any_eq_true.mp h
      exact absurd (by simpa using heq) (habs r hr)
  · have h1 : ensure_drop drops uid un now =
        drops ++ [⟨uid, un, now, "active"⟩] := by simp [ensure_drop, h]
    have h2 : (drops ++ [(⟨uid, un, now, "active"⟩ : DropRow)]).any
        (fun r => r.tg_user_id == uid) = true := by simp
    refine ⟨?_, ?_, ?_⟩
    · rintro ⟨r, hr, heq⟩
      exact absurd (List.any_eq_true.mpr ⟨r, hr, by simpa using heq⟩) h
    · rw [h1]
      simp [ensure_drop, h2]
    · intro hnone
      rw [h1]
      simp only [ensure_drop, h2, if_pos]
      rw [List.filter_append]
      have hfil : drops.filter (fun r => r.tg_user_id == uid) = [] := by
        apply List.filter_eq_nil_iff.mpr
        intro r hr
        simpa using hnone r hr
      rw [hfil]
      simp

theorem C6_registration_idempotent_witness :
    ensure_drop [⟨5, "u", "t", "active"⟩] 5 "u2" "t2" = [⟨5, "u", "t", "active"⟩] ∧
    ((ensure_drop (ensure_drop [] 5 "u" "t") 5 "u2" "t2").filter
      (fun r => r.tg_user_id == 5)).length = 1 :=
  ⟨(C6_registration_idempotent [⟨5, "u", "t", "active"⟩] 5 "u2" "t2" "x" "y").1
      ⟨⟨5, "u", "t", "active"⟩, by simp, rfl⟩,
   (C6_registration_idempotent [] 5 "u" "t" "u2" "t2").2.2 (by simp)⟩

/-- Claim C7: presenting a wrong secret never changes the elevated set;
presenting the configured secret makes `is_admin` true for the caller
and keeps it true across any further `/pin` activity; and `is_admin`
holds exactly for ids in the static allow-list or the elevated set. -/
theorem C7_privilege_elevation (adminIds e : List Nat) (id : Nat) (args : String)
    (calls : List (Nat × String)) :
    (stripStr args ≠ PIN_CODE → cmd_pin e id args = e) ∧
    (stripStr args = PIN_CODE →
      is_admin adminIds (cmd_pin e id args) id = true ∧
      is_admin adminIds (runPins (cmd_pin e id args) calls) id = true) ∧
    (is_admin adminIds e id = true ↔ id ∈ adminIds ∨ id ∈ e) := by
  refine ⟨?_, ?_, is_admin_iff adminIds e id⟩
  · intro h
    simp only [cmd_pin]
    by_cases h1 : stripStr args = ""
    · rw [if_pos h1]
    · rw [if_neg h1, if_neg h]
  · intro h
    have hne : stripStr args ≠ "" := by
      rw [h]
      decide
    have hmem : id ∈ cmd_pin e id args := by
      simp only [cmd_pin]
      rw [if_neg hne, if_pos h]
      exact List.mem_insert_self id e
    exact ⟨(is_admin_iff adminIds _ id).mpr (Or.inr hmem),
           (is_admin_iff adminIds _ id).mpr (Or.inr (runPins_mono calls hmem))⟩

theorem C7_privilege_elevation_witness :
    cmd_pin [] 7 "9999" = [] ∧
    is_admin [] (cmd_pin [] 7 "1588") 7 = true ∧
    is_admin [] (runPins (cmd_pin [] 7 "1588") [(8, "0000"), (9, "1588")]) 7 = true := by
  refine ⟨(C7_privilege_elevation [] [] 7 "9999" []).1 (by decide), ?_, ?_⟩
  · exact ((C7_privilege_elevation [] [] 7 "1588" [(8, "0000"), (9, "1588")]).2.1
      (by decide)).1
  · exact ((C7_privilege_elevation [] [] 7 "1588" [(8, "0000"), (9, "1588")]).2.1
      (by decide)).2

/-- Claim C8: `add_proof` accepts any queue id, even one matching no
queue row: it still appends one `PENDING` proof row and returns the new
proof id, and when no queue row matches, the queue is left entirely
unchanged. -/
theorem C8_submit_dangling (proofs : List ProofRow) (queue : List QueueRow)
    (qid uid : Nat) (oid fid ftype now : String) :
    (add_proof proofs queue qid uid oid fid ftype now).1 = nextProofId proofs ∧
    (add_proof proofs queue qid uid oid fid ftype now).2.1 =
      proofs ++ [⟨nextProofId proofs, qid, uid, oid, fid, ftype, now, "", "PENDING"⟩] ∧
    ((∀ r ∈ queue, r.queue_id ≠ qid) →
      (add_proof proofs queue qid uid oid fid ftype now).2.2 = queue) :=
  ⟨rfl, rfl, fun h => update_queue_status_no_match queue qid "PROOF_SENT" h⟩

theorem C8_submit_dangling_witness :
    (add_proof [] [⟨9, 42, "1", "t", "IN_QUEUE"⟩] 999 42 "1" "f" "photo" "t2").1 =
      nextProofId [] ∧
    (add_proof [] [⟨9, 42, "1", "t", "IN_QUEUE"⟩] 999 42 "1" "f" "photo" "t2").2.1 =
      [] ++ [⟨nextProofId [], 999, 42, "1", "f", "photo", "t2", "", "PENDING"⟩] ∧
    (add_proof [] [⟨9, 42, "1", "t", "IN_QUEUE"⟩] 999 42 "1" "f" "photo" "t2").2.2 =
      [⟨9, 42, "1", "t", "IN_QUEUE"⟩] := by
  have h := C8_submit_dangling [] [⟨9, 42, "1", "t", "IN_QUEUE"⟩] 999 42 "1" "f" "photo" "t2"
  exact ⟨h.1, h.2.1, h.2.2 (by decide)⟩

/-- Offers table for the capacity-race scenario: a single active offer
with a daily cap of 1. -/
def raceOffers : List OfferRow := [⟨"1", "X", 1, "TRUE"⟩]

/-- The UTC calendar date on which the racing joins run. -/
def raceDay : String := "2026-10-12"

/-- The timestamp both racing joins write into `queued_at`. -/
def raceNow : String := "2026-10-12T10:00:00+00:00"

/-- Queue state after the first racing join's append. -/
def raceQ1 : List QueueRow := (join_queue [] 101 "1" raceNow).2

/-- Queue state after the second racing join's append. -/
def raceQ2 : List QueueRow := (join_queue raceQ1 102 "1" raceNow).2

/-- Claim C9 fails on the code: the capacity check and the append inside
a join are separate store round-trips, so in the interleaving
check(A); check(B); append(A); append(B) both checks read the initial
empty queue and pass against the cap of 1, yet afterwards two
non-terminal entries for today exist — exceeding the cap.  A serialized
second join, by contrast, would have been refused. -/
theorem C9_capacity_race :
    lookupOffer (list_active_offers raceOffers) "1" = some ⟨"1", "X", 1⟩ ∧
    today_assigned_count [] "1" raceDay < 1 ∧
    today_assigned_count raceQ2 "1" raceDay = 2 ∧
    offer_selected raceOffers raceQ1 102 "1" raceDay raceNow =
      (JoinOutcome.capacityExceeded, raceQ1) := by decide

/-- Claim C10: when `decide_proof` matches a submission, the record it
returns is the row as read before the update — decision and reviewer
note still hold their prior values — even though the stored row has been
updated to the new decision and note. -/
theorem C10_returns_preupdate_row (proofs l₁ l₂ : List ProofRow) (r : ProofRow)
    (queue : List QueueRow) (pid : Nat) (d note : String)
    (hsplit : proofs = l₁ ++ r :: l₂) (hl : ∀ x ∈ l₁, x.proof_id ≠ pid)
    (hr : r.proof_id = pid) :
    (decide_proof proofs queue pid d note).1 = some r ∧
    ((decide_proof proofs queue pid d note).1.map ProofRow.decision = some r.decision ∧
     (decide_proof proofs queue pid d note).1.map ProofRow.manager_note =
       some r.manager_note) ∧
    (decide_proof proofs queue pid d note).2.1 =
      l₁ ++ { r with decision := d,
                     manager_note := if note != "" then note else r.manager_note } :: l₂ := by
  subst hsplit
  have h := decide_proof_split l₁ l₂ r queue pid d note hl hr
  rw [h]
  exact ⟨rfl, ⟨rfl, rfl⟩, rfl⟩

theorem C10_returns_preupdate_row_witness :
    (decide_proof [⟨2, 9, 42, "1", "f", "photo", "t", "old", "PENDING"⟩] []
        2 "REJECTED" "bad").1 =
      some ⟨2, 9, 42, "1", "f", "photo", "t", "old", "PENDING"⟩ ∧
    (decide_proof [⟨2, 9, 42, "1", "f", "photo", "t", "old", "PENDING"⟩] []
        2 "REJECTED" "bad").2.1 =
      [⟨2, 9, 42, "1", "f", "photo", "t", "bad", "REJECTED"⟩] := by
  have h := C10_returns_preupdate_row
    [⟨2, 9, 42, "1", "f", "photo", "t", "old", "PENDING"⟩]
    [] [] ⟨2, 9, 42, "1", "f", "photo", "t", "old", "PENDING"⟩ [] 2 "REJECTED" "bad"
    rfl (by simp) rfl
  refine ⟨h.1, ?_⟩
  rw [h.2.2]
  rfl

end NextBot
